import Mathlib

/-!
Verification model of the saucer scheme-executor state machine and its
backend adapters, translated from the C++ sources:

* `src/src/wkg.scheme.impl.cpp` (first half): the WebKitGTK backend
  (`saucer::scheme::executor` over a kernel pipe, plus `handler::handle`).
* `src/src/wkg.scheme.impl.cpp` (second half, `wk.scheme.impl`): the
  WebKit/macOS backend (`scheme::executor` over the shared task table,
  plus `SchemeHandler startURLSchemeTask` / `stopURLSchemeTask`).
* `src/unnamed/part_003` (`qt.scheme.impl.cpp`): the Qt backend
  (`scheme::executor` over a `stream_device`, plus the `request`
  accessors and `handler::requestStarted`).
* `src/unnamed/part_000` (scheme header): the `error` enum, `response`,
  `stream_response` and the executor surface.

Each backend is modelled as a small-step function from an explicit
executor-impl state to a successor state plus the list of native calls
("events") that the step performs.  Native completion calls
(`webkit_uri_scheme_request_finish_with_response`, `finish_error`,
`::write` on the pipe, `close`, `QWebEngineUrlRequestJob::reply`/`fail`,
`stream_device::push`/`close_write`, `didReceiveResponse` /
`didReceiveData` / `didFinish` / `didFailWithError`) are recorded as
events; the atomic `started` / `finished` flags are Bool fields; the
lock-protected task table of the WebKit backend is a list of handles.
-/

namespace Saucer

/-- Error kinds of `enum class error : std::int16_t` in the scheme header. -/
inductive error
  | not_found
  | invalid
  | denied
  | failed
deriving DecidableEq

/-- Numeric code carried by each error kind (the enum value, what
`std::to_underlying` produces). -/
def errorCode : error → Int
  | .not_found => 404
  | .invalid => 400
  | .denied => 401
  | .failed => -1

/-- `scheme::response`: full payload, mime, headers, status (default 200). -/
structure response where
  data : List Nat
  mime : String
  headers : List (String × String)
  status : Int := 200
deriving DecidableEq

/-- `scheme::stream_response`: stream-initiation mime, headers, status. -/
structure stream_response where
  mime : String
  headers : List (String × String)
  status : Int := 200
deriving DecidableEq

/-- Sample response used by concrete witnesses. -/
def r0 : response := { data := [104, 105], mime := "text/plain", headers := [], status := 200 }

/-- Sample stream response used by concrete witnesses. -/
def sr0 : stream_response := { mime := "application/octet-stream", headers := [], status := 200 }

/-! ## WebKitGTK backend (`wkg.scheme.impl.cpp`, first half of the file) -/

namespace Wkg

/-- Outcome of one `::write` system call on the pipe inside
`executor::write`: `ok n` means the call returned `n ≥ 0` (a complete or
short write), `eintr` means it returned `-1` with `errno == EINTR`, and
`fail` means it returned `-1` with any other `errno`. -/
inductive SysRes
  | ok (n : Nat)
  | eintr
  | fail
deriving DecidableEq

/-- Native calls the WebKitGTK executor can perform.  `deliverFull` is the
memory-stream `finish_with_response` made by the `resolve` lambda,
`deliverError` is `finish_error` with the enum value, `beginStream` is the
pipe-backed `finish_with_response` made by `start`, `pipeWrite` is one
successful `::write` of the given bytes into the pipe, and `pipeClose` is
`close(write_fd)` (EOF for the reader). -/
inductive Event
  | deliverFull (r : response)
  | deliverError (code : Int)
  | beginStream (sr : stream_response)
  | pipeWrite (bytes : List Nat)
  | pipeClose
deriving DecidableEq

/-- State of `executor::impl` for the WebKitGTK backend: the two atomic
flags plus whether `write_fd >= 0` (the pipe's write end is open). -/
structure Impl where
  started : Bool
  finished : Bool
  writeOpen : Bool
deriving DecidableEq

/-- State of a freshly constructed impl (`handler::handle`): both flags
false, `write_fd` is `-1`. -/
def init : Impl := ⟨false, false, false⟩

/-- Operations of the public executor surface.  `start` carries whether
the `pipe(fds)` call succeeds; `write` carries the data chunk and the
oracle of `::write` syscall outcomes consumed by the retry loop. -/
inductive Op
  | resolve (r : response)
  | reject (e : error)
  | start (sr : stream_response) (pipeOk : Bool)
  | write (chunk : List Nat) (oracle : List SysRes)
  | finish
deriving DecidableEq

/-- The retry loop of `executor::write`: while bytes remain, issue one
`::write`; on a short write advance past the written bytes, on `EINTR`
retry, on any other error break (dropping the rest of the chunk).  Each
iteration consumes one oracle entry; an exhausted oracle ends the loop
(the real call would block instead). -/
def writeLoop : List Nat → List SysRes → List Event
  | [], _ => []
  | _ :: _, [] => []
  | b :: bs, .ok n :: rest => .pipeWrite ((b :: bs).take n) :: writeLoop ((b :: bs).drop n) rest
  | b :: bs, .eintr :: rest => writeLoop (b :: bs) rest
  | _ :: _, .fail :: _ => []

/-- Bytes carried by a single event into the pipe. -/
def payload : Event → List Nat
  | .pipeWrite b => b
  | _ => []

/-- All bytes a list of events delivers into the pipe, in order. -/
def pipeBytes (evs : List Event) : List Nat := (evs.map payload).flatten

/-- Total number of bytes the syscall oracle can accept over `ok` results. -/
def okSum : List SysRes → Nat
  | [] => 0
  | .ok n :: r => n + okSum r
  | .eintr :: r => okSum r
  | .fail :: r => okSum r

/-- Whether the syscall oracle contains no hard (non-EINTR) write error. -/
def noFail : List SysRes → Bool
  | [] => true
  | .fail :: _ => false
  | .ok _ :: r => noFail r
  | .eintr :: r => noFail r

/-- One executor call on the WebKitGTK impl state, returning the successor
state and the native calls performed.  Each branch mirrors the C++:

* `resolve` runs the resolve lambda: no-op if `started` or if
  `finished.exchange(true)` was already true, else one full delivery.
* `reject`: if `started`, close the pipe (if open) and set `finished`
  (no error can be sent once headers are committed); otherwise the reject
  lambda delivers `finish_error` once, guarded by `finished.exchange`.
* `start`: guarded by `started.exchange(true) || finished`; a failed
  `pipe()` resets `started` and leaves everything as before; on success
  the headers/status response is committed and the write end kept.
* `write`: guarded by `!started || finished || write_fd < 0`, then the
  retry loop.
* `finish`: guarded by `!started || finished.exchange(true)`, then closes
  the pipe. -/
def step (s : Impl) : Op → Impl × List Event
  | .resolve r =>
      if s.started then (s, [])
      else if s.finished then (s, [])
      else ({ s with finished := true }, [.deliverFull r])
  | .reject e =>
      if s.started then
        ({ s with writeOpen := false, finished := true },
          if s.writeOpen then [.pipeClose] else [])
      else if s.finished then (s, [])
      else ({ s with finished := true }, [.deliverError (errorCode e)])
  | .start sr pipeOk =>
      if s.started then (s, [])
      else if s.finished then ({ s with started := true }, [])
      else if pipeOk then ({ s with started := true, writeOpen := true }, [.beginStream sr])
      else (s, [])
  | .write chunk oracle =>
      (s, if s.started && !s.finished && s.writeOpen then writeLoop chunk oracle else [])
  | .finish =>
      if !s.started then (s, [])
      else if s.finished then (s, [])
      else ({ s with finished := true, writeOpen := false },
        if s.writeOpen then [.pipeClose] else [])

/-- Run a sequence of executor calls, concatenating the native calls. -/
def run (s : Impl) : List Op → Impl × List Event
  | [] => (s, [])
  | op :: rest => ((run (step s op).1 rest).1, (step s op).2 ++ (run (step s op).1 rest).2)

/-- `executor::streaming` for WebKitGTK: impl present and not finished
(the null-impl layer is modelled separately). -/
def streaming (s : Impl) : Bool := !s.finished

/-- Whether an event is a terminal-or-initial native delivery: the full
response, the error, or the stream-header commit. -/
def isDeliv : Event → Bool
  | .deliverFull _ => true
  | .deliverError _ => true
  | .beginStream _ => true
  | _ => false

/-- Number of native deliveries in an event list. -/
def countDeliv (evs : List Event) : Nat := (evs.filter isDeliv).length

/-- Whether an event is a chunk delivery into the pipe. -/
def isChunk : Event → Bool
  | .pipeWrite _ => true
  | _ => false

/-- Number of chunk-delivery events in an event list. -/
def countChunks (evs : List Event) : Nat := (evs.filter isChunk).length

/-- The handler dispatch decision of `handler::handle`: if the webview has
no registered callback, return with nothing constructed; otherwise a fresh
impl in its initial state is built and the resolver invoked exactly once.
The returned pair is (constructed executor impl, resolver invocations). -/
def dispatch (cbs : List Nat) (inst : Nat) : Option Impl × Nat :=
  if inst ∈ cbs then (some init, 1) else (none, 0)

end Wkg

/-! ## Qt backend (`qt.scheme.impl.cpp`, `src/unnamed/part_003`) -/

namespace Qtb

/-- The `QWebEngineUrlRequestJob::Error` values the reject lambda maps the
error kinds onto. -/
inductive JobError
  | urlNotFound
  | urlInvalid
  | requestDenied
  | requestFailed
deriving DecidableEq

/-- The switch in the Qt reject lambda mapping `scheme::error` onto
`QWebEngineUrlRequestJob::Error`. -/
def mapError : error → JobError
  | .not_found => .urlNotFound
  | .invalid => .urlInvalid
  | .denied => .requestDenied
  | .failed => .requestFailed

/-- Native calls the Qt executor can perform.  `reply` is
`setAdditionalResponseHeaders` plus `QWebEngineUrlRequestJob::reply` with
the stream device (the header commit); `replyFull` is the buffer-backed
reply made by the resolve lambda; `push` is `stream_device::push`;
`closeWrite` is `stream_device::close_write`; `failEv` is
`QWebEngineUrlRequestJob::fail`. -/
inductive Event
  | reply (mime : String) (headers : List (String × String)) (status : Int)
  | replyFull (r : response)
  | push (bytes : List Nat)
  | closeWrite
  | failEv (e : JobError)
deriving DecidableEq

/-- State of `executor::impl` for the Qt backend: the two atomic flags,
whether the `device` pointer is non-null, and whether the lock-protected
`QWebEngineUrlRequestJob*` is still non-null (it is assigned `nullptr` by
the `destroyed` connection when the native request dies). -/
structure Impl where
  started : Bool
  finished : Bool
  device : Bool
  reqAlive : Bool
deriving DecidableEq

/-- State as constructed by `handler::requestStarted`: fresh flags, a new
`stream_device`, a live request. -/
def init : Impl := ⟨false, false, true, true⟩

/-- Qt executor operations; `destroy` is the `QObject::destroyed`
connection firing when the native request object is destroyed. -/
inductive Op
  | resolve (r : response)
  | reject (e : error)
  | start (sr : stream_response)
  | write (chunk : List Nat)
  | finish
  | destroy
deriving DecidableEq

/-- One executor call on the Qt impl state.  Branches mirror the C++:

* `resolve` (resolve lambda): no-op if `started` or `finished.exchange`,
  no-op without an event if the request died, else one full reply.
* `reject` (`executor::reject` then the reject lambda): if `started` and
  the device exists, `close_write` the device first — unconditionally —
  then the lambda delivers `fail` once, guarded by `finished.exchange`
  and by the request still being alive.
* `start`: guarded by `started.exchange || finished`; a null device or a
  dead request resets `started` and leaves the state as before; on
  success headers and the device reply are committed.
* `write`: guarded by `!started || finished || !device`; pushes exactly
  one chunk into the device.
* `finish`: guarded by `!started || finished.exchange`; closes the write
  side of the device.
* `destroy`: the connection lambda nulls the locked request pointer and
  `close_write`s the captured device. -/
def step (s : Impl) : Op → Impl × List Event
  | .resolve r =>
      if s.started then (s, [])
      else if s.finished then (s, [])
      else if s.reqAlive then ({ s with finished := true }, [.replyFull r])
      else ({ s with finished := true }, [])
  | .reject e =>
      if s.finished then (s, if s.started && s.device then [.closeWrite] else [])
      else if s.reqAlive then
        ({ s with finished := true },
          (if s.started && s.device then [.closeWrite] else []) ++ [.failEv (mapError e)])
      else ({ s with finished := true }, if s.started && s.device then [.closeWrite] else [])
  | .start sr =>
      if s.started then (s, [])
      else if s.finished then ({ s with started := true }, [])
      else if !s.device then (s, [])
      else if !s.reqAlive then (s, [])
      else ({ s with started := true }, [.reply sr.mime sr.headers sr.status])
  | .write chunk =>
      (s, if s.started && !s.finished && s.device then [.push chunk] else [])
  | .finish =>
      if !s.started then (s, [])
      else if s.finished then (s, [])
      else ({ s with finished := true }, if s.device then [.closeWrite] else [])
  | .destroy =>
      ({ s with reqAlive := false }, [.closeWrite])

/-- Run a sequence of Qt executor calls. -/
def run (s : Impl) : List Op → Impl × List Event
  | [] => (s, [])
  | op :: rest => ((run (step s op).1 rest).1, (step s op).2 ++ (run (step s op).1 rest).2)

/-- `executor::streaming` for Qt: impl present, the locked request
pointer non-null, and not finished. -/
def streaming (s : Impl) : Bool := s.reqAlive && !s.finished

end Qtb

/-! ## Qt request accessors (`qt.scheme.impl.cpp`, request implementation) -/

namespace QtReq

/-- State backing `scheme::request` in the Qt backend: the lock-protected
native `QWebEngineUrlRequestJob*` (alive or nulled by the `destroyed`
connection), the values the native object would report while alive, and
the body bytes copied into `m_impl->body` at dispatch time. -/
structure Impl where
  reqAlive : Bool
  nativeUrl : String
  nativeMethod : String
  nativeHeaders : List (String × String)
  body : List Nat
deriving DecidableEq

/-- `request::url`: reads `request.value()->requestUrl()` through the
lock on every call, with no null check; `none` models the null-pointer
dereference that happens when the native request was already destroyed
(the `destroyed` connection assigned `nullptr` to the lock). -/
def url (r : Impl) : Option String :=
  if r.reqAlive then some r.nativeUrl else none

/-- `request::method`: reads `request.value()->requestMethod()` through
the lock on every call, with no null check; `none` models the
null-pointer dereference after the native request was destroyed. -/
def method (r : Impl) : Option String :=
  if r.reqAlive then some r.nativeMethod else none

/-- `request::headers`: reads `request.value()->requestHeaders()` through
the lock on every call, with no null check; `none` models the
null-pointer dereference after the native request was destroyed. -/
def headers (r : Impl) : Option (List (String × String)) :=
  if r.reqAlive then some r.nativeHeaders else none

/-- `request::content`: a view of the body bytes captured at construction
(`m_impl->body`); touches no native object. -/
def content (r : Impl) : List Nat := r.body

end QtReq

/-! ## WebKit/macOS backend (`wk.scheme.impl`, second half of
`wkg.scheme.impl.cpp`) -/

namespace Wk

/-- Native calls the WebKit executor can perform on the url-scheme task:
`respond` is `didReceiveResponse` with the given mime/headers/status,
`dataEv` is `didReceiveData`, `finishEv` is `didFinish`, and `failEv` is
`didFailWithError` with the numeric code. -/
inductive Event
  | respond (mime : String) (headers : List (String × String)) (status : Int)
  | dataEv (bytes : List Nat)
  | finishEv
  | failEv (code : Int)
deriving DecidableEq

/-- State of `scheme::executor::impl` for the WebKit backend: the two
atomic flags, the opaque per-request handle (`task.hash`), and the shared
lock-protected task table, modelled as the list of handles it contains. -/
structure Impl where
  started : Bool
  finished : Bool
  handle : Nat
  tasks : List Nat
deriving DecidableEq

/-- Erasing a key from the task table. -/
def erase (l : List Nat) (h : Nat) : List Nat := l.filter (fun x => x ≠ h)

/-- WebKit executor operations; `stop` is `stopURLSchemeTask`, the
cancellation delivered by the toolkit, which erases the table entry. -/
inductive Op
  | resolve (r : response)
  | reject (e : error)
  | start (sr : stream_response)
  | write (chunk : List Nat)
  | finish
  | stop
deriving DecidableEq

/-- One executor call on the WebKit impl state.  Branches mirror the C++:

* `resolve` (resolve lambda): guarded by `started` and
  `finished.exchange`; re-validates the table entry, then delivers
  response + data + finish and erases the entry.
* `reject`: with `started && !finished.exchange(true)` the stream is
  finished with `didFailWithError` (after re-validating and erasing the
  table entry); otherwise the reject lambda runs with the same
  `finished.exchange` guard, table re-validation, delivery, erasure.
* `start`: guarded by `started.exchange || finished`; a missing table
  entry resets `started` and leaves the state as before; otherwise
  `didReceiveResponse` commits the headers.
* `write`: guarded by the flags, then re-validates the table entry
  before `didReceiveData`.
* `finish`: guarded by `!started || finished.exchange`; re-validates,
  erases the entry and delivers `didFinish`.
* `stop`: erases the table entry under lock, no native call. -/
def step (s : Impl) : Op → Impl × List Event
  | .resolve r =>
      if s.started then (s, [])
      else if s.finished then (s, [])
      else if s.handle ∈ s.tasks then
        ({ s with finished := true, tasks := erase s.tasks s.handle },
          [.respond r.mime r.headers r.status, .dataEv r.data, .finishEv])
      else ({ s with finished := true }, [])
  | .reject e =>
      if s.started then
        if s.finished then (s, [])
        else if s.handle ∈ s.tasks then
          ({ s with finished := true, tasks := erase s.tasks s.handle },
            [.failEv (errorCode e)])
        else ({ s with finished := true }, [])
      else if s.finished then (s, [])
      else if s.handle ∈ s.tasks then
        ({ s with finished := true, tasks := erase s.tasks s.handle },
          [.failEv (errorCode e)])
      else ({ s with finished := true }, [])
  | .start sr =>
      if s.started then (s, [])
      else if s.finished then ({ s with started := true }, [])
      else if s.handle ∈ s.tasks then
        ({ s with started := true }, [.respond sr.mime sr.headers sr.status])
      else (s, [])
  | .write chunk =>
      (s, if s.started && !s.finished then
            (if s.handle ∈ s.tasks then [.dataEv chunk] else [])
          else [])
  | .finish =>
      if !s.started then (s, [])
      else if s.finished then (s, [])
      else if s.handle ∈ s.tasks then
        ({ s with finished := true, tasks := erase s.tasks s.handle }, [.finishEv])
      else ({ s with finished := true }, [])
  | .stop =>
      ({ s with tasks := erase s.tasks s.handle }, [])

/-- Run a sequence of WebKit executor calls. -/
def run (s : Impl) : List Op → Impl × List Event
  | [] => (s, [])
  | op :: rest => ((run (step s op).1 rest).1, (step s op).2 ++ (run (step s op).1 rest).2)

/-- `scheme::executor::streaming` for WebKit: impl present, handle still
in the table, not finished. -/
def streaming (s : Impl) : Bool := decide (s.handle ∈ s.tasks) && !s.finished

/-- The dispatch decision of `startURLSchemeTask`: if the webview has no
registered callback, return with nothing constructed and the table
untouched; otherwise emplace the task into the table (emplace does not
overwrite an existing key), build a fresh executor impl bound to that
entry and invoke the resolver exactly once.  Returns (new table,
constructed executor impl, resolver invocations). -/
def dispatch (cbs : List Nat) (inst : Nat) (taskHash : Nat) (tasks : List Nat) :
    List Nat × Option Impl × Nat :=
  if inst ∈ cbs then
    (if taskHash ∈ tasks then tasks else taskHash :: tasks,
      some ⟨false, false, taskHash, if taskHash ∈ tasks then tasks else taskHash :: tasks⟩, 1)
  else (tasks, none, 0)

end Wk

/-! ## Null-handle layer (`m_impl` may be a null shared pointer) -/

/-- WebKitGTK executor step through the `m_impl` null guard that every
public operation performs first (`if (!m_impl) return;`). -/
def Wkg.estep : Option Wkg.Impl → Wkg.Op → Option Wkg.Impl × List Wkg.Event
  | none, _ => (none, [])
  | some s, op => (some (Wkg.step s op).1, (Wkg.step s op).2)

/-- `executor::streaming` for WebKitGTK including the null guard
(`m_impl && !m_impl->finished`). -/
def Wkg.estreaming : Option Wkg.Impl → Bool
  | none => false
  | some s => Wkg.streaming s

/-- Qt executor step through the `m_impl` null guard. -/
def Qtb.estep : Option Qtb.Impl → Qtb.Op → Option Qtb.Impl × List Qtb.Event
  | none, _ => (none, [])
  | some s, op => (some (Qtb.step s op).1, (Qtb.step s op).2)

/-- `executor::streaming` for Qt including the null guard. -/
def Qtb.estreaming : Option Qtb.Impl → Bool
  | none => false
  | some s => Qtb.streaming s

/-- WebKit executor step through the `m_impl` null guard. -/
def Wk.estep : Option Wk.Impl → Wk.Op → Option Wk.Impl × List Wk.Event
  | none, _ => (none, [])
  | some s, op => (some (Wk.step s op).1, (Wk.step s op).2)

/-- `scheme::executor::streaming` for WebKit including the null guard. -/
def Wk.estreaming : Option Wk.Impl → Bool
  | none => false
  | some s => Wk.streaming s

/-! ## Invariants of the WebKitGTK executor -/

namespace Wkg

/-- The write end of the pipe is only open while streaming and before the
terminal transition. -/
def Inv (s : Impl) : Prop := s.writeOpen = true → s.started = true ∧ s.finished = false

lemma countDeliv_append (a b : List Event) :
    countDeliv (a ++ b) = countDeliv a + countDeliv b := by
  simp [countDeliv, List.filter_append]

lemma writeLoop_events (o : List SysRes) (b : List Nat) :
    ∀ ev ∈ writeLoop b o, isDeliv ev = false := by
  induction o generalizing b with
  | nil => cases b <;> simp [writeLoop]
  | cons r rest ih =>
    cases b with
    | nil => simp [writeLoop]
    | cons x xs =>
      cases r with
      | ok n =>
        intro ev hev
        rw [writeLoop] at hev
        rcases List.mem_cons.mp hev with h | h
        · simp [h, isDeliv]
        · exact ih ((x :: xs).drop n) ev h
      | eintr =>
        intro ev hev
        rw [writeLoop] at hev
        exact ih (x :: xs) ev hev
      | fail => simp [writeLoop]

lemma writeLoop_no_deliv (o : List SysRes) (b : List Nat) :
    countDeliv (writeLoop b o) = 0 := by
  have h : (writeLoop b o).filter isDeliv = [] := by
    rw [List.filter_eq_nil_iff]
    intro a ha
    simpa using writeLoop_events o b a ha
  simp [countDeliv, h]

lemma step_claimed (s : Impl) (op : Op) (h : (s.started || s.finished) = true) :
    countDeliv (step s op).2 = 0 ∧
      ((step s op).1.started || (step s op).1.finished) = true := by
  obtain ⟨st, fin, w⟩ := s
  cases op with
  | resolve r => cases st <;> cases fin <;> simp_all [step, countDeliv, isDeliv]
  | reject e =>
    cases st <;> cases fin <;> cases w <;> simp_all [step, countDeliv, isDeliv]
  | start sr pk =>
    cases st <;> cases fin <;> cases pk <;> simp_all [step, countDeliv, isDeliv]
  | write c o =>
    cases st <;> cases fin <;> cases w <;> simp_all [step, countDeliv]
    exact writeLoop_events o c
  | finish => cases st <;> cases fin <;> cases w <;> simp_all [step, countDeliv, isDeliv]

lemma step_unclaimed (s : Impl) (op : Op) (h : (s.started || s.finished) = false) :
    ((step s op).2 = [] ∧ (step s op).1 = s) ∨
      (countDeliv (step s op).2 ≤ 1 ∧
        ((step s op).1.started || (step s op).1.finished) = true) := by
  obtain ⟨st, fin, w⟩ := s
  cases op with
  | resolve r => cases st <;> cases fin <;> simp_all [step, countDeliv, isDeliv]
  | reject e =>
    cases st <;> cases fin <;> cases w <;> simp_all [step, countDeliv, isDeliv]
  | start sr pk =>
    cases st <;> cases fin <;> cases pk <;> simp_all [step, countDeliv, isDeliv]
  | write c o => cases st <;> cases fin <;> cases w <;> simp_all [step]
  | finish => cases st <;> cases fin <;> cases w <;> simp_all [step, countDeliv, isDeliv]

lemma run_deliv_bound (ops : List Op) :
    ∀ s : Impl, countDeliv (run s ops).2 ≤
      if (s.started || s.finished) = true then 0 else 1 := by
  induction ops with
  | nil => intro s; simp [run, countDeliv]
  | cons op rest ih =>
    intro s
    rw [run, countDeliv_append]
    by_cases hc : (s.started || s.finished) = true
    · have h1 := step_claimed s op hc
      have h2 := ih (step s op).1
      rw [if_pos h1.2] at h2
      rw [if_pos hc]
      omega
    · have hcf : (s.started || s.finished) = false := by
        simpa using hc
      rw [if_neg hc]
      rcases step_unclaimed s op hcf with ⟨he, hs⟩ | ⟨hle, hcl⟩
      · have h2 := ih (step s op).1
        rw [hs, if_neg hc] at h2
        rw [he, hs]
        simpa [countDeliv] using h2
      · have h2 := ih (step s op).1
        rw [if_pos hcl] at h2
        omega

lemma step_silent (s : Impl) (op : Op) (hf : s.finished = true) (hw : s.writeOpen = false) :
    (step s op).2 = [] ∧ (step s op).1.finished = true ∧
      (step s op).1.writeOpen = false := by
  obtain ⟨st, fin, w⟩ := s
  cases hf
  cases hw
  cases op with
  | resolve r => cases st <;> simp [step]
  | reject e => cases st <;> simp [step]
  | start sr pk => cases st <;> simp [step]
  | write c o => cases st <;> simp [step]
  | finish => cases st <;> simp [step]

lemma run_silent (ops : List Op) :
    ∀ s : Impl, s.finished = true → s.writeOpen = false →
      (run s ops).2 = [] ∧ (run s ops).1.finished = true ∧
        (run s ops).1.writeOpen = false := by
  induction ops with
  | nil => intro s hf hw; simpa [run] using ⟨hf, hw⟩
  | cons op rest ih =>
    intro s hf hw
    have h1 := step_silent s op hf hw
    have h2 := ih (step s op).1 h1.2.1 h1.2.2
    rw [run]
    simpa [h1.1] using h2

lemma step_inv (s : Impl) (op : Op) (h : Inv s) : Inv (step s op).1 := by
  obtain ⟨st, fin, w⟩ := s
  cases op with
  | resolve r => cases st <;> cases fin <;> cases w <;> simp_all [step, Inv]
  | reject e => cases st <;> cases fin <;> cases w <;> simp_all [step, Inv]
  | start sr pk =>
    cases st <;> cases fin <;> cases w <;> cases pk <;> simp_all [step, Inv]
  | write c o => cases st <;> cases fin <;> cases w <;> simp_all [step, Inv]
  | finish => cases st <;> cases fin <;> cases w <;> simp_all [step, Inv]

lemma run_inv (ops : List Op) : ∀ s : Impl, Inv s → Inv (run s ops).1 := by
  induction ops with
  | nil => intro s h; simpa [run] using h
  | cons op rest ih =>
    intro s h
    rw [run]
    exact ih (step s op).1 (step_inv s op h)

lemma pipeBytes_cons (e : Event) (evs : List Event) :
    pipeBytes (e :: evs) = payload e ++ pipeBytes evs := by
  simp [pipeBytes]

lemma writeLoop_nil (o : List SysRes) : writeLoop [] o = [] := by
  cases o with
  | nil => rfl
  | cons r rest => cases r <;> rfl

lemma writeLoop_complete (o : List SysRes) :
    ∀ b : List Nat, noFail o = true → b.length ≤ okSum o →
      pipeBytes (writeLoop b o) = b := by
  induction o with
  | nil =>
    intro b _ hlen
    have hb : b = [] := by
      cases b with
      | nil => rfl
      | cons x xs => simp [okSum] at hlen
    subst hb
    rfl
  | cons r rest ih =>
    intro b hnf hlen
    cases b with
    | nil => cases r <;> rfl
    | cons x xs =>
      cases r with
      | ok n =>
        rw [writeLoop, pipeBytes_cons]
        have h1 : pipeBytes (writeLoop ((x :: xs).drop n) rest) = (x :: xs).drop n := by
          apply ih
          · simp only [noFail] at hnf
            exact hnf
          · simp only [okSum] at hlen
            simp only [List.length_drop]
            omega
        rw [h1]
        exact List.take_append_drop n (x :: xs)
      | eintr =>
        rw [writeLoop]
        exact ih (x :: xs) (by simp only [noFail] at hnf; exact hnf)
          (by simp only [okSum] at hlen; exact hlen)
      | fail => simp [noFail] at hnf

lemma writeLoop_order (o : List SysRes) :
    ∀ b : List Nat, ∃ rest, pipeBytes (writeLoop b o) ++ rest = b := by
  induction o with
  | nil =>
    intro b
    cases b with
    | nil => exact ⟨[], rfl⟩
    | cons x xs => exact ⟨x :: xs, rfl⟩
  | cons r rest ih =>
    intro b
    cases b with
    | nil => exact ⟨[], rfl⟩
    | cons x xs =>
      cases r with
      | ok n =>
        obtain ⟨t, ht⟩ := ih ((x :: xs).drop n)
        refine ⟨t, ?_⟩
        rw [writeLoop, pipeBytes_cons, List.append_assoc, ht]
        exact List.take_append_drop n (x :: xs)
      | eintr =>
        obtain ⟨t, ht⟩ := ih (x :: xs)
        exact ⟨t, by rw [writeLoop]; exact ht⟩
      | fail => exact ⟨x :: xs, rfl⟩

lemma writeLoop_stops_on_fail (pre post : List SysRes) :
    ∀ b : List Nat,
      writeLoop b (pre ++ SysRes.fail :: post) = writeLoop b (pre ++ [SysRes.fail]) := by
  induction pre with
  | nil => intro b; cases b <;> rfl
  | cons p ps ih =>
    intro b
    cases b with
    | nil => rfl
    | cons x xs =>
      cases p with
      | ok n =>
        simp only [List.cons_append, writeLoop, List.append_eq]
        rw [ih]
      | eintr =>
        simp only [List.cons_append, writeLoop, List.append_eq]
        rw [ih]
      | fail => rfl

lemma run_stream_tail (chunks : List (List Nat)) (hne : ∀ c ∈ chunks, c ≠ []) :
    run ⟨true, false, true⟩
        (chunks.map (fun c => Op.write c [SysRes.ok c.length]) ++ [Op.finish]) =
      (⟨true, true, false⟩, chunks.map Event.pipeWrite ++ [Event.pipeClose]) := by
  induction chunks with
  | nil => rfl
  | cons c cs ih =>
    obtain ⟨x, xs, rfl⟩ := List.exists_cons_of_ne_nil (hne c (by simp))
    simp only [List.map_cons, List.cons_append]
    rw [run]
    have hstep : step ⟨true, false, true⟩ (Op.write (x :: xs) [SysRes.ok (x :: xs).length]) =
        (⟨true, false, true⟩, [Event.pipeWrite (x :: xs)]) := by
      simp [step, writeLoop, List.take_length, List.drop_length]
    rw [hstep]
    simp [ih (fun d hd => hne d (List.mem_cons_of_mem _ hd))]

end Wkg

namespace Qtb

lemma run_push_tail (chunks : List (List Nat)) :
    run ⟨true, false, true, true⟩ (chunks.map Op.write ++ [Op.finish]) =
      (⟨true, true, true, true⟩, chunks.map Event.push ++ [Event.closeWrite]) := by
  induction chunks with
  | nil => rfl
  | cons c cs ih =>
    simp only [List.map_cons, List.cons_append]
    rw [run]
    have hstep : step ⟨true, false, true, true⟩ (Op.write c) =
        (⟨true, false, true, true⟩, [Event.push c]) := rfl
    rw [hstep]
    simp [ih]

end Qtb

namespace Wk

lemma not_mem_erase (l : List Nat) (h : Nat) : h ∉ erase l h := by
  simp [erase]

lemma step_handle (s : Impl) (op : Op) : (step s op).1.handle = s.handle := by
  cases op <;> first
    | rfl
    | (simp only [step]; split_ifs <;> rfl)

lemma step_not_mem (s : Impl) (op : Op) (h : s.handle ∉ s.tasks) :
    (step s op).1.handle ∉ (step s op).1.tasks := by
  rw [step_handle]
  cases op <;> simp only [step] <;> (try split_ifs) <;>
    first
      | exact h
      | exact not_mem_erase _ _

lemma run_not_mem (ops : List Op) :
    ∀ s : Impl, s.handle ∉ s.tasks → (run s ops).1.handle ∉ (run s ops).1.tasks := by
  induction ops with
  | nil => intro s h; simpa [run] using h
  | cons op rest ih =>
    intro s h
    rw [run]
    exact ih _ (step_not_mem s op h)

lemma write_events_of_not_mem (s : Impl) (chunk : List Nat)
    (h : s.handle ∉ s.tasks) : (step s (Op.write chunk)).2 = [] := by
  simp [step, h]

lemma streaming_false_of_not_mem (s : Impl) (h : s.handle ∉ s.tasks) :
    streaming s = false := by
  simp [streaming, h]

end Wk

/-! ## Claims -/

/-- C1: on the WebKitGTK executor, over every sequence of `resolve`,
`reject`, `start`, `write`, `finish` calls from the Idle state, at most
one native delivery (`resolve`'s full response, `reject`'s error, or
`start`'s header commit) is performed; and once the terminal `finished`
flag is set (Resolved, Rejected or Finished), every further call sequence
performs zero native calls. -/
theorem c1_exactly_once_then_terminal_silence (ops more : List Wkg.Op) :
    Wkg.countDeliv (Wkg.run Wkg.init ops).2 ≤ 1 ∧
    ((Wkg.run Wkg.init ops).1.finished = true →
      (Wkg.run (Wkg.run Wkg.init ops).1 more).2 = []) := by
  constructor
  · have h := Wkg.run_deliv_bound ops Wkg.init
    simpa [Wkg.init] using h
  · intro hf
    have hinv : Wkg.Inv (Wkg.run Wkg.init ops).1 :=
      Wkg.run_inv ops Wkg.init (by intro h; simp [Wkg.init] at h)
    have hw : (Wkg.run Wkg.init ops).1.writeOpen = false := by
      cases hwo : (Wkg.run Wkg.init ops).1.writeOpen
      · rfl
      · have hcon := (hinv hwo).2
        rw [hcon] at hf
        simp at hf
    exact (Wkg.run_silent more _ hf hw).1

/-- Witness for C1: a resolve reaches the terminal state, and a later
finish performs no native call. -/
theorem c1_exactly_once_then_terminal_silence_witness :
    Wkg.countDeliv (Wkg.run Wkg.init [Wkg.Op.resolve r0]).2 ≤ 1 ∧
    (Wkg.run (Wkg.run Wkg.init [Wkg.Op.resolve r0]).1 [Wkg.Op.finish]).2 = [] :=
  ⟨(c1_exactly_once_then_terminal_silence [Wkg.Op.resolve r0] [Wkg.Op.finish]).1,
    (c1_exactly_once_then_terminal_silence [Wkg.Op.resolve r0] [Wkg.Op.finish]).2 rfl⟩

/-- C2 counterexample: on the cited WebKitGTK backend the claim fails for
a zero-length chunk.  With one `start`, one `write` of an empty chunk and
one `finish`, the retry loop's `while (remaining > 0)` guard means no
`::write` syscall happens at all, so the native layer observes zero
chunk-delivery events, not exactly one. -/
theorem c2_counterexample :
    Wkg.countChunks
      (Wkg.run Wkg.init
        [Wkg.Op.start sr0 true, Wkg.Op.write [] [Wkg.SysRes.ok 0], Wkg.Op.finish]).2 = 0 ∧
    (Wkg.run Wkg.init
        [Wkg.Op.start sr0 true, Wkg.Op.write [] [Wkg.SysRes.ok 0], Wkg.Op.finish]).2 =
      [Wkg.Event.beginStream sr0, Wkg.Event.pipeClose] :=
  ⟨rfl, rfl⟩

/-- C2 amended: for a `start`, then N `write`s, then `finish` with no
cancellation, the Qt backend delivers exactly one header reply carrying
the given mime/headers/status, then exactly one `push` per chunk in the
order written (for arbitrary chunks), then exactly one `close_write`
end-of-stream, and nothing else.  The WebKitGTK backend delivers the
analogous sequence — one header commit, one pipe write per chunk in
order when the syscalls accept each chunk whole, then the closing EOF —
only when every chunk is nonempty: a zero-length chunk performs no
syscall under any syscall oracle and contributes no event. -/
theorem c2_stream_event_sequence (sr : stream_response) (chunks : List (List Nat)) :
    (Qtb.run Qtb.init
        (Qtb.Op.start sr :: (chunks.map Qtb.Op.write ++ [Qtb.Op.finish]))).2 =
      Qtb.Event.reply sr.mime sr.headers sr.status ::
        (chunks.map Qtb.Event.push ++ [Qtb.Event.closeWrite]) ∧
    ((∀ c ∈ chunks, c ≠ []) →
      (Wkg.run Wkg.init
          (Wkg.Op.start sr true ::
            (chunks.map (fun c => Wkg.Op.write c [Wkg.SysRes.ok c.length]) ++
              [Wkg.Op.finish]))).2 =
        Wkg.Event.beginStream sr ::
          (chunks.map Wkg.Event.pipeWrite ++ [Wkg.Event.pipeClose])) ∧
    (∀ o : List Wkg.SysRes, Wkg.writeLoop [] o = []) := by
  refine ⟨?_, ?_, fun o => Wkg.writeLoop_nil o⟩
  · rw [Qtb.run]
    have hstep : Qtb.step Qtb.init (Qtb.Op.start sr) =
        (⟨true, false, true, true⟩, [Qtb.Event.reply sr.mime sr.headers sr.status]) := rfl
    rw [hstep]
    simp [Qtb.run_push_tail]
  · intro hne
    rw [Wkg.run]
    have hstep : Wkg.step Wkg.init (Wkg.Op.start sr true) =
        (⟨true, false, true⟩, [Wkg.Event.beginStream sr]) := rfl
    rw [hstep]
    simp [Wkg.run_stream_tail chunks hne]

/-- Witness for the amended C2 with two concrete nonempty chunks. -/
theorem c2_stream_event_sequence_witness :
    (Qtb.run Qtb.init
        (Qtb.Op.start sr0 :: ([[1], [2, 3]].map Qtb.Op.write ++ [Qtb.Op.finish]))).2 =
      Qtb.Event.reply sr0.mime sr0.headers sr0.status ::
        ([[1], [2, 3]].map Qtb.Event.push ++ [Qtb.Event.closeWrite]) ∧
    (Wkg.run Wkg.init
        (Wkg.Op.start sr0 true ::
          ([[1], [2, 3]].map (fun c => Wkg.Op.write c [Wkg.SysRes.ok c.length]) ++
            [Wkg.Op.finish]))).2 =
      Wkg.Event.beginStream sr0 ::
        ([[1], [2, 3]].map Wkg.Event.pipeWrite ++ [Wkg.Event.pipeClose]) :=
  ⟨(c2_stream_event_sequence sr0 [[1], [2, 3]]).1,
    (c2_stream_event_sequence sr0 [[1], [2, 3]]).2.1 (by decide)⟩

/-- C3 counterexample: the Qt `request` accessors are not pure reads over
a construction-time snapshot.  `url()`, `method()` and `headers()` go
through the lock-protected native `QWebEngineUrlRequestJob*` on every
call with no null check, so after the native request has been destroyed
(the `destroyed` connection assigned `nullptr`) each of them dereferences
a null pointer, modelled as `none`. -/
theorem c3_counterexample :
    QtReq.url ⟨false, "app://host/x", "GET", [], [104, 105]⟩ = none ∧
    QtReq.method ⟨false, "app://host/x", "GET", [], [104, 105]⟩ = none ∧
    QtReq.headers ⟨false, "app://host/x", "GET", [], [104, 105]⟩ = none :=
  ⟨rfl, rfl, rfl⟩

/-- C3 amended: only `content()` is a pure read over data captured at
construction (the body copied at dispatch time) and stays valid after the
native request dies; `url()`, `method()` and `headers()` re-query the
native request object through the lock on every call — they return the
native values while it is alive and dereference a null pointer (`none`)
once it has been destroyed. -/
theorem c3_amended_only_content_is_snapshot (r : QtReq.Impl) :
    QtReq.content r = r.body ∧
    (r.reqAlive = true →
      QtReq.url r = some r.nativeUrl ∧ QtReq.method r = some r.nativeMethod ∧
      QtReq.headers r = some r.nativeHeaders) ∧
    (r.reqAlive = false →
      QtReq.url r = none ∧ QtReq.method r = none ∧ QtReq.headers r = none) := by
  refine ⟨rfl, ?_, ?_⟩ <;> intro h <;>
    simp [QtReq.url, QtReq.method, QtReq.headers, h]

/-- Witness for the amended C3 at a live and a destroyed request. -/
theorem c3_amended_only_content_is_snapshot_witness :
    QtReq.content ⟨true, "app://a", "GET", [("k", "v")], [1, 2]⟩ = [1, 2] ∧
    QtReq.url ⟨true, "app://a", "GET", [("k", "v")], [1, 2]⟩ = some "app://a" ∧
    QtReq.url ⟨false, "app://a", "GET", [("k", "v")], [1, 2]⟩ = none :=
  ⟨(c3_amended_only_content_is_snapshot ⟨true, "app://a", "GET", [("k", "v")], [1, 2]⟩).1,
    ((c3_amended_only_content_is_snapshot ⟨true, "app://a", "GET", [("k", "v")], [1, 2]⟩).2.1 rfl).1,
    ((c3_amended_only_content_is_snapshot ⟨false, "app://a", "GET", [("k", "v")], [1, 2]⟩).2.2 rfl).1⟩

/-- C4 counterexample: on the Qt backend cited by the claim, a `reject`
after `start` has committed headers does deliver a native error code —
after `close_write`ing the device it still calls
`QWebEngineUrlRequestJob::fail` with the mapped error. -/
theorem c4_counterexample :
    (Qtb.run Qtb.init [Qtb.Op.start sr0, Qtb.Op.reject error.failed]).2 =
      [Qtb.Event.reply "application/octet-stream" [] 200, Qtb.Event.closeWrite,
        Qtb.Event.failEv Qtb.JobError.requestFailed] ∧
    Qtb.Event.failEv Qtb.JobError.requestFailed ∈
      (Qtb.run Qtb.init [Qtb.Op.start sr0, Qtb.Op.reject error.failed]).2 :=
  ⟨rfl, by decide⟩

/-- C4 amended: reject-after-start is backend-defined.  On the WebKitGTK
backend it delivers no native error code: it only closes the pipe (EOF
to the consumer) and the executor is terminal afterwards.  On the Qt
backend it closes the stream device and additionally delivers the native
`fail` with the mapped error code when the request is alive and not yet
finished; the executor is terminal afterwards. -/
theorem c4_amended_post_start_reject (e : error) :
    (∀ s : Wkg.Impl, s.started = true →
      (Wkg.step s (Wkg.Op.reject e)).2 =
        (if s.writeOpen then [Wkg.Event.pipeClose] else []) ∧
      Wkg.countDeliv (Wkg.step s (Wkg.Op.reject e)).2 = 0 ∧
      (Wkg.step s (Wkg.Op.reject e)).1.finished = true) ∧
    (∀ s : Qtb.Impl, s.started = true → s.finished = false → s.device = true →
      s.reqAlive = true →
      (Qtb.step s (Qtb.Op.reject e)).2 =
        [Qtb.Event.closeWrite, Qtb.Event.failEv (Qtb.mapError e)] ∧
      (Qtb.step s (Qtb.Op.reject e)).1.finished = true) := by
  constructor
  · intro s hst
    obtain ⟨st, fin, w⟩ := s
    cases hst
    refine ⟨rfl, ?_, rfl⟩
    cases w <;> simp [Wkg.step, Wkg.countDeliv, Wkg.isDeliv]
  · intro s hst hfin hdev halive
    obtain ⟨st, fin, dv, ra⟩ := s
    cases hst
    cases hfin
    cases hdev
    cases halive
    exact ⟨rfl, rfl⟩

/-- Witness for the amended C4 at concrete streaming states. -/
theorem c4_amended_post_start_reject_witness :
    (Wkg.step ⟨true, false, true⟩ (Wkg.Op.reject error.failed)).2 = [Wkg.Event.pipeClose] ∧
    (Wkg.step ⟨true, false, true⟩ (Wkg.Op.reject error.failed)).1.finished = true ∧
    (Qtb.step ⟨true, false, true, true⟩ (Qtb.Op.reject error.failed)).2 =
      [Qtb.Event.closeWrite, Qtb.Event.failEv Qtb.JobError.requestFailed] := by
  refine ⟨?_, ?_, ?_⟩
  · have h := ((c4_amended_post_start_reject error.failed).1 ⟨true, false, true⟩ rfl).1
    simpa using h
  · exact ((c4_amended_post_start_reject error.failed).1 ⟨true, false, true⟩ rfl).2.2
  · exact ((c4_amended_post_start_reject error.failed).2 ⟨true, false, true, true⟩
      rfl rfl rfl rfl).1

/-- C5 counterexample: on the Qt backend the claim fails for the
"native request invalidated" arm.  After the native request object has
been destroyed (the `destroyed` connection nulls the locked pointer),
a subsequent `write` still calls `push` on the stream device — a native
call on an object parented to the destroyed request — rather than
no-oping: the trace of start, destroy, write contains the push. -/
theorem c5_counterexample :
    (Qtb.run Qtb.init [Qtb.Op.start sr0, Qtb.Op.destroy, Qtb.Op.write [9]]).2 =
      [Qtb.Event.reply "application/octet-stream" [] 200, Qtb.Event.closeWrite,
        Qtb.Event.push [9]] ∧
    Qtb.Event.push [9] ∈
      (Qtb.run Qtb.init [Qtb.Op.start sr0, Qtb.Op.destroy, Qtb.Op.write [9]]).2 :=
  ⟨rfl, by decide⟩

/-- C5 amended: cancellation behavior is backend-defined.  On the WebKit
task-table backend, once `stopURLSchemeTask` has erased the handle from
the shared table, every subsequent `write` performs no native call (no
later executor call can restore the entry) and `streaming()` reports
false.  On the Qt backend, after the native request is destroyed,
`streaming()`/`valid()` does report false, but a subsequent `write`
still pushes into the stream device owned by the destroyed request
instead of no-oping.  (The WebKitGTK source has no cancellation path at
all: its `streaming()` is just `!finished`.) -/
theorem c5_amended_cancel_behavior (s : Wk.Impl) (ops : List Wk.Op) (chunk : List Nat)
    (qs : Qtb.Impl) (qchunk : List Nat) :
    ((Wk.step (Wk.run (Wk.step s Wk.Op.stop).1 ops).1 (Wk.Op.write chunk)).2 = [] ∧
      Wk.streaming (Wk.run (Wk.step s Wk.Op.stop).1 ops).1 = false) ∧
    Qtb.streaming (Qtb.step qs Qtb.Op.destroy).1 = false ∧
    (qs.started = true → qs.finished = false → qs.device = true →
      (Qtb.step (Qtb.step qs Qtb.Op.destroy).1 (Qtb.Op.write qchunk)).2 =
        [Qtb.Event.push qchunk]) := by
  refine ⟨?_, ?_, ?_⟩
  · have h0 : (Wk.step s Wk.Op.stop).1.handle ∉ (Wk.step s Wk.Op.stop).1.tasks := by
      simpa [Wk.step] using Wk.not_mem_erase s.tasks s.handle
    have h1 := Wk.run_not_mem ops _ h0
    exact ⟨Wk.write_events_of_not_mem _ chunk h1, Wk.streaming_false_of_not_mem _ h1⟩
  · rfl
  · intro hst hfin hdev
    obtain ⟨st, fin, dv, ra⟩ := qs
    cases hst
    cases hfin
    cases hdev
    rfl

/-- Witness for the amended C5 at concrete states on both backends. -/
theorem c5_amended_cancel_behavior_witness :
    (Wk.step (Wk.run (Wk.step ⟨true, false, 3, [3]⟩ Wk.Op.stop).1 []).1
        (Wk.Op.write [1])).2 = [] ∧
    Qtb.streaming (Qtb.step ⟨true, false, true, true⟩ Qtb.Op.destroy).1 = false ∧
    (Qtb.step (Qtb.step ⟨true, false, true, true⟩ Qtb.Op.destroy).1
        (Qtb.Op.write [9])).2 = [Qtb.Event.push [9]] :=
  ⟨(c5_amended_cancel_behavior ⟨true, false, 3, [3]⟩ [] [1]
      ⟨true, false, true, true⟩ [9]).1.1,
    (c5_amended_cancel_behavior ⟨true, false, 3, [3]⟩ [] [1]
      ⟨true, false, true, true⟩ [9]).2.1,
    (c5_amended_cancel_behavior ⟨true, false, 3, [3]⟩ [] [1]
      ⟨true, false, true, true⟩ [9]).2.2 rfl rfl rfl⟩

/-- C6: the error kinds carry the fixed codes 404, 400, 401 and -1, and a
pre-stream `reject(not_found)` on the WebKitGTK backend produces exactly
one terminal native error event carrying 404 and no header-delivery
event. -/
theorem c6_error_codes_and_pre_stream_reject :
    errorCode error.not_found = 404 ∧ errorCode error.invalid = 400 ∧
    errorCode error.denied = 401 ∧ errorCode error.failed = -1 ∧
    (Wkg.run Wkg.init [Wkg.Op.reject error.not_found]).2 =
      [Wkg.Event.deliverError 404] :=
  ⟨rfl, rfl, rfl, rfl, rfl⟩

/-- C7: the dispatchers decline (construct nothing, touch nothing, invoke
nothing) when no resolver is registered for the webview instance, and
otherwise build a fresh Idle executor bound to a table entry for the
task and invoke the resolver exactly once. -/
theorem c7_dispatch_decline_or_invoke_once (cbs : List Nat) (inst taskHash : Nat)
    (tasks : List Nat) :
    (inst ∉ cbs →
      Wk.dispatch cbs inst taskHash tasks = (tasks, none, 0) ∧
      Wkg.dispatch cbs inst = (none, 0)) ∧
    (inst ∈ cbs →
      Wk.dispatch cbs inst taskHash tasks =
        ((Wk.dispatch cbs inst taskHash tasks).1,
          some ⟨false, false, taskHash, (Wk.dispatch cbs inst taskHash tasks).1⟩, 1) ∧
      taskHash ∈ (Wk.dispatch cbs inst taskHash tasks).1 ∧
      Wkg.dispatch cbs inst = (some Wkg.init, 1)) := by
  constructor
  · intro h
    simp [Wk.dispatch, Wkg.dispatch, h]
  · intro h
    refine ⟨?_, ?_, ?_⟩
    · by_cases ht : taskHash ∈ tasks <;> simp [Wk.dispatch, h, ht]
    · by_cases ht : taskHash ∈ tasks <;> simp [Wk.dispatch, h, ht]
    · simp [Wkg.dispatch, h]

/-- Witness for C7: an unregistered and a registered instance. -/
theorem c7_dispatch_decline_or_invoke_once_witness :
    (Wk.dispatch [1] 2 5 [] = ([], none, 0) ∧ Wkg.dispatch [1] 2 = (none, 0)) ∧
    (Wk.dispatch [1] 1 5 [] =
        ((Wk.dispatch [1] 1 5 []).1,
          some ⟨false, false, 5, (Wk.dispatch [1] 1 5 []).1⟩, 1) ∧
      5 ∈ (Wk.dispatch [1] 1 5 []).1 ∧ Wkg.dispatch [1] 1 = (some Wkg.init, 1)) :=
  ⟨(c7_dispatch_decline_or_invoke_once [1] 2 5 []).1 (by decide),
    (c7_dispatch_decline_or_invoke_once [1] 1 5 []).2 (by decide)⟩

/-- C8: a start whose internal resource acquisition fails is invisible:
on WebKitGTK a failed `pipe()` leaves the executor in its exact prior
Idle state with no native call, so any continuation behaves as if the
start never happened; on WebKit the same holds when the handle is no
longer in the task table. -/
theorem c8_failed_start_is_invisible (sr : stream_response) (more : List Wkg.Op) :
    Wkg.run Wkg.init (Wkg.Op.start sr false :: more) = Wkg.run Wkg.init more ∧
    (∀ (s : Wk.Impl) (more2 : List Wk.Op),
      s.started = false → s.finished = false → s.handle ∉ s.tasks →
      Wk.run s (Wk.Op.start sr :: more2) = Wk.run s more2) := by
  constructor
  · have hstep : Wkg.step Wkg.init (Wkg.Op.start sr false) = (Wkg.init, []) := rfl
    rw [Wkg.run, hstep]
    simp
  · intro s more2 hst hfin hmem
    have hstep : Wk.step s (Wk.Op.start sr) = (s, []) := by
      simp [Wk.step, hst, hfin, hmem]
    rw [Wk.run, hstep]
    simp

/-- Witness for C8: a failed start followed by a resolve delivers exactly
as if the start had never happened. -/
theorem c8_failed_start_is_invisible_witness :
    Wkg.run Wkg.init (Wkg.Op.start sr0 false :: [Wkg.Op.resolve r0]) =
      Wkg.run Wkg.init [Wkg.Op.resolve r0] ∧
    Wk.run ⟨false, false, 7, []⟩ (Wk.Op.start sr0 :: [Wk.Op.resolve r0]) =
      Wk.run ⟨false, false, 7, []⟩ [Wk.Op.resolve r0] :=
  ⟨(c8_failed_start_is_invisible sr0 [Wkg.Op.resolve r0]).1,
    (c8_failed_start_is_invisible sr0 []).2 ⟨false, false, 7, []⟩ [Wk.Op.resolve r0]
      rfl rfl (by decide)⟩

/-- C9: every public executor operation on a null impl handle is a total
no-op returning no events, and `streaming()` on a null impl is false, on
all three backends. -/
theorem c9_null_impl_total_noop :
    (∀ op, Wkg.estep none op = (none, [])) ∧ Wkg.estreaming none = false ∧
    (∀ op, Qtb.estep none op = (none, [])) ∧ Qtb.estreaming none = false ∧
    (∀ op, Wk.estep none op = (none, [])) ∧ Wk.estreaming none = false :=
  ⟨fun _ => rfl, rfl, fun _ => rfl, rfl, fun _ => rfl, rfl⟩

/-- C10: the WebKitGTK write retry loop delivers the whole chunk, in
order, whenever the syscall oracle has no hard error and enough total
capacity (EINTR results and short writes are retried/advanced past); in
every case the delivered bytes are an in-order front portion of the
chunk; a non-EINTR error stops delivery there (nothing after it is
consumed, the rest of the chunk is dropped); and `write` never changes
the executor's state flags. -/
theorem c10_write_retry_loop (chunk : List Nat) (oracle pre post : List Wkg.SysRes)
    (s : Wkg.Impl) (hnf : Wkg.noFail oracle = true)
    (hcap : chunk.length ≤ Wkg.okSum oracle) :
    Wkg.pipeBytes (Wkg.writeLoop chunk oracle) = chunk ∧
    (∀ (c : List Nat) (o : List Wkg.SysRes),
      ∃ rest, Wkg.pipeBytes (Wkg.writeLoop c o) ++ rest = c) ∧
    Wkg.writeLoop chunk (pre ++ Wkg.SysRes.fail :: post) =
      Wkg.writeLoop chunk (pre ++ [Wkg.SysRes.fail]) ∧
    (Wkg.step s (Wkg.Op.write chunk oracle)).1 = s :=
  ⟨Wkg.writeLoop_complete oracle chunk hnf hcap,
    fun c o => Wkg.writeLoop_order o c,
    Wkg.writeLoop_stops_on_fail pre post chunk, rfl⟩

/-- Witness for C10: a short write plus an EINTR retry still delivers the
whole chunk. -/
theorem c10_write_retry_loop_witness :
    Wkg.noFail [Wkg.SysRes.ok 2, Wkg.SysRes.eintr, Wkg.SysRes.ok 5] = true ∧
    Wkg.pipeBytes
        (Wkg.writeLoop [1, 2, 3] [Wkg.SysRes.ok 2, Wkg.SysRes.eintr, Wkg.SysRes.ok 5]) =
      [1, 2, 3] :=
  ⟨by decide,
    (c10_write_retry_loop [1, 2, 3] [Wkg.SysRes.ok 2, Wkg.SysRes.eintr, Wkg.SysRes.ok 5]
      [] [] Wkg.init (by decide) (by decide)).1⟩

end Saucer
